import Mathlib

/-
  Shallow embedding of the Treeguessr round engine.

  The repository holds two variant implementations of the same game:
  * Variant B ("cost-per-guess"), from src/src/game.jsx: every letter guess
    costs points (vowels 15, consonants 5); the round is lost when the score
    would drop to <= 0, and the score is clamped to 0 there.  Whole-phrase
    guesses consume a separate counter starting at 3.
  * Variant A ("reward/penalty"), from src/unnamed/part_000: correct letters
    gain 10 points (20 when outside the common-letter set), wrong letters
    cost 5 and count towards a limit of 6; a wrong whole-phrase guess costs
    25 and ends the round at once.

  React state is modelled as an explicit `Round` record; each event handler
  becomes a function `Round → input → Round`.  The win/loss `useEffect` runs
  after a handler whenever one of its dependencies changed; it is composed
  into the handlers exactly where that happens (where the effect does re-run
  but its first guard sees a terminal state, composing it is the identity,
  and the comments at each handler record the reasoning).
-/

inductive GState
  | playing
  | won
  | lost
deriving DecidableEq

inductive InputMode
  | letterMode
  | wordMode
deriving DecidableEq

/-- `new Set(currentWord.replace(/ /g, ''))`: the distinct non-space
characters of the secret.  Shared by both variants. -/
def uniqueLettersInWord (w : String) : Finset Char :=
  (w.toList.filter (fun c => c ≠ ' ')).toFinset

namespace VariantB

def VOWELS : Finset Char := {'A', 'E', 'I', 'O', 'U'}

def COST_PER_VOWEL : Int := 15

def COST_PER_CONSONANT : Int := 5

def STARTING_SCORE : Int := 100

def STARTING_WORD_GUESSES : Int := 3

structure Round where
  currentWord : String
  guessedLetters : Finset Char
  score : Int
  wordGuessesLeft : Int
  wrongWordGuesses : List String
  inputMode : InputMode
  gameState : GState
  message : String
deriving DecidableEq

def winMessage (w : String) (s : Int) : String :=
  "You got it! It was " ++ w ++ ". Final Score: " ++ toString s

def outOfPointsMessage (w : String) : String :=
  "You ran out of points! The tree was: " ++ w

def outOfGuessesMessage (w : String) : String :=
  "You\x27re out of tree guesses! The tree was: " ++ w

/-- `startNewGame`, with the randomly picked word as a parameter. -/
def startNewGame (newWord : String) : Round :=
  { currentWord := newWord
    guessedLetters := ∅
    score := STARTING_SCORE
    wordGuessesLeft := STARTING_WORD_GUESSES
    wrongWordGuesses := []
    inputMode := InputMode.letterMode
    gameState := GState.playing
    message := "" }

/-- The win-check `useEffect` (deps: guessedLetters, gameState, currentWord,
uniqueLettersInWord, score).  It returns early unless the round is playing
and the word is loaded, and declares a win when every distinct letter has
been guessed. -/
def winCheck (r : Round) : Round :=
  if r.gameState ≠ GState.playing ∨ r.currentWord = "LOADING" then r
  else if 0 < (uniqueLettersInWord r.currentWord).card ∧
      uniqueLettersInWord r.currentWord ⊆ r.guessedLetters then
    { r with gameState := GState.won, message := winMessage r.currentWord r.score }
  else r

/-- `handleGuessLetter`.  Both mutating branches change dependencies of the
win-check effect, so `winCheck` is composed after them; in the lost branch it
is the identity (terminal guard). -/
def handleGuessLetter (r : Round) (letter : Char) : Round :=
  if r.gameState ≠ GState.playing ∨ letter ∈ r.guessedLetters then r
  else
    let newGuessedLetters := insert letter r.guessedLetters
    let cost := if letter ∈ VOWELS then COST_PER_VOWEL else COST_PER_CONSONANT
    let newScore := r.score - cost
    winCheck (if newScore ≤ 0 then
      { r with guessedLetters := newGuessedLetters, score := 0,
               gameState := GState.lost,
               message := outOfPointsMessage r.currentWord }
    else
      { r with guessedLetters := newGuessedLetters, score := newScore })

/-- `handleGuessWord`.  The win-check effect is not composed here: after the
win branch and the fatal wrong branch it re-runs but its terminal guard makes
it the identity, and after the non-fatal wrong branch none of its
dependencies change, so it does not re-run. -/
def handleGuessWord (r : Round) (wordGuess : String) : Round :=
  if r.gameState ≠ GState.playing then r
  else if wordGuess = r.currentWord then
    { r with gameState := GState.won,
             message := winMessage r.currentWord r.score,
             guessedLetters := r.guessedLetters ∪ uniqueLettersInWord r.currentWord }
  else
    let newGuessesLeft := r.wordGuessesLeft - 1
    if newGuessesLeft ≤ 0 then
      { r with wordGuessesLeft := newGuessesLeft,
               wrongWordGuesses := r.wrongWordGuesses ++ [wordGuess],
               gameState := GState.lost,
               message := outOfGuessesMessage r.currentWord }
    else
      { r with wordGuessesLeft := newGuessesLeft,
               wrongWordGuesses := r.wrongWordGuesses ++ [wordGuess] }

def playLetters (r : Round) (gs : List Char) : Round :=
  gs.foldl handleGuessLetter r

def playWords (r : Round) (gs : List String) : Round :=
  gs.foldl handleGuessWord r

end VariantB

namespace VariantA

def POINTS_PER_CORRECT_LETTER : Int := 10

def POINTS_PER_WORD_GUESS : Int := 100

def PENALTY_PER_WRONG_LETTER : Int := -5

def PENALTY_PER_WRONG_WORD : Int := -25

def COMMON_LETTERS : Finset Char := {'E', 'T', 'A', 'O', 'I', 'N', 'S', 'H', 'R'}

def MAX_WRONG_GUESSES : Nat := 6

/-- JavaScript `word.replace(' ', '')` (no global flag) removes only the
first space of the string. -/
def replaceFirstSpace : List Char → List Char
  | [] => []
  | c :: cs => if c = ' ' then cs else c :: replaceFirstSpace cs

/-- `calculateWordDifficulty`.  The floating comparison
`uncommonLetters / uniqueLetters.size > 0.5` is exact for the alphabet-sized
integers involved and is rendered as `size < 2 * uncommon`. -/
def calculateWordDifficulty (word : String) : Nat :=
  let base := 1 + (if 10 < word.length then 1 else 0) +
    (if ' ' ∈ word.toList then 0 else 1)
  let uniqueLetters := (replaceFirstSpace word.toList).toFinset
  let uncommonLetters := (uniqueLetters.filter (fun c => c ∉ COMMON_LETTERS)).card
  if 0 < uniqueLetters.card ∧ uniqueLetters.card < 2 * uncommonLetters then
    base + 1
  else base

structure Round where
  currentWord : String
  guessedLetters : Finset Char
  wrongGuesses : Nat
  score : Int
  difficulty : Nat
  inputMode : InputMode
  gameState : GState
  message : String
deriving DecidableEq

def winMessage (w : String) (s : Int) : String :=
  "You got it! It was " ++ w ++ ". Final Score: " ++ toString s

def gameOverMessage (w : String) : String :=
  "Game over! The tree was: " ++ w

def notItMessage (w : String) : String :=
  "Sorry, that\x27s not it! The tree was: " ++ w

/-- `startNewGame`, with the randomly picked word as a parameter. -/
def startNewGame (newWord : String) : Round :=
  { currentWord := newWord
    guessedLetters := ∅
    wrongGuesses := 0
    score := 0
    difficulty := calculateWordDifficulty newWord
    inputMode := InputMode.letterMode
    gameState := GState.playing
    message := "" }

/-- The win/loss-check `useEffect` (deps: guessedLetters, wrongGuesses,
gameState, currentWord).  Win is checked before loss; the win branch adds the
difficulty bonus to the score. -/
def check (r : Round) : Round :=
  if r.gameState ≠ GState.playing ∨ r.currentWord = "LOADING" then r
  else if 0 < (uniqueLettersInWord r.currentWord).card ∧
      uniqueLettersInWord r.currentWord ⊆ r.guessedLetters then
    let finalScore := r.score + POINTS_PER_WORD_GUESS * (r.difficulty : Int)
    { r with gameState := GState.won, score := finalScore,
             message := winMessage r.currentWord finalScore }
  else if MAX_WRONG_GUESSES ≤ r.wrongGuesses then
    { r with gameState := GState.lost,
             message := gameOverMessage r.currentWord }
  else r

/-- `handleGuessLetter`.  Both branches change dependencies of the
win/loss-check effect, so `check` is composed after them. -/
def handleGuessLetter (r : Round) (letter : Char) : Round :=
  if r.gameState ≠ GState.playing ∨ letter ∈ r.guessedLetters then r
  else
    let newGuessedLetters := insert letter r.guessedLetters
    check (if letter ∈ r.currentWord.toList then
      let letterPoints := if letter ∈ COMMON_LETTERS then POINTS_PER_CORRECT_LETTER
        else POINTS_PER_CORRECT_LETTER * 2
      { r with guessedLetters := newGuessedLetters,
               score := r.score + letterPoints }
    else
      { r with guessedLetters := newGuessedLetters,
               wrongGuesses := r.wrongGuesses + 1,
               score := r.score + PENALTY_PER_WRONG_LETTER })

/-- `handleGuessWord`.  The win/loss-check effect is not composed here: both
branches set a terminal state, so although the effect re-runs, its terminal
guard makes it the identity. -/
def handleGuessWord (r : Round) (wordGuess : String) : Round :=
  if r.gameState ≠ GState.playing then r
  else if wordGuess = r.currentWord then
    let finalScore := r.score + POINTS_PER_WORD_GUESS * (r.difficulty : Int) +
      POINTS_PER_CORRECT_LETTER * ((uniqueLettersInWord r.currentWord).card : Int)
    { r with score := finalScore, gameState := GState.won,
             message := winMessage r.currentWord finalScore,
             guessedLetters := r.guessedLetters ∪ uniqueLettersInWord r.currentWord }
  else
    { r with score := r.score + PENALTY_PER_WRONG_WORD,
             gameState := GState.lost,
             message := notItMessage r.currentWord }

def playLetters (r : Round) (gs : List Char) : Round :=
  gs.foldl handleGuessLetter r

end VariantA

/-- Win invariant for Variant A: the round still carries its secret, and it
is won exactly when every distinct non-space letter has been guessed. -/
def VariantA.WinInv (w : String) (r : VariantA.Round) : Prop :=
  r.currentWord = w ∧
    (r.gameState = GState.won ↔ uniqueLettersInWord w ⊆ r.guessedLetters)

/-- Weak win invariant for Variant B: a won round has every distinct
non-space letter guessed (the converse fails: the score can run out on the
guess that completes the word). -/
def VariantB.WonSubsetInv (w : String) (r : VariantB.Round) : Prop :=
  r.currentWord = w ∧
    (r.gameState = GState.won → uniqueLettersInWord w ⊆ r.guessedLetters)

/- Concrete inputs used to instantiate the theorems below. -/

def wOAK : String := "OAK"

def wELM : String := "ELM"

def wFIR : String := "FIR"

def wASH : String := "ASH"

/-- A secret whose distinct letters are the five vowels and five consonants:
guessing all of them costs exactly 15*5 + 5*5 = 100 points in Variant B. -/
def wALLCOST : String := "ABCDEFGIOU"

/-- A one-letter secret: its single correct letter guess completes the word
at once. -/
def wO : String := "O"

def guessesALLCOST : List Char := ['A', 'B', 'C', 'D', 'E', 'F', 'G', 'I', 'O', 'U']

def roundA1 : VariantA.Round :=
  { VariantA.startNewGame wOAK with guessedLetters := {'A'} }

def roundB1 : VariantB.Round :=
  { VariantB.startNewGame wOAK with guessedLetters := {'A'} }

def roundAWon : VariantA.Round :=
  { VariantA.startNewGame wOAK with gameState := GState.won }

def roundBWon : VariantB.Round :=
  { VariantB.startNewGame wOAK with gameState := GState.won }

/- Helper lemmas. -/

namespace VariantB

theorem winCheck_eq_of_terminal (r : Round) (h : r.gameState ≠ GState.playing) :
    winCheck r = r := by
  unfold winCheck
  rw [if_pos (Or.inl h)]

theorem winCheck_score (r : Round) : (winCheck r).score = r.score := by
  unfold winCheck
  split
  · rfl
  split
  · rfl
  · rfl

theorem winCheck_guessedLetters (r : Round) :
    (winCheck r).guessedLetters = r.guessedLetters := by
  unfold winCheck
  split
  · rfl
  split
  · rfl
  · rfl

theorem winCheck_currentWord (r : Round) :
    (winCheck r).currentWord = r.currentWord := by
  unfold winCheck
  split
  · rfl
  split
  · rfl
  · rfl

theorem handleGuessLetter_eq_of_terminal (r : Round) (l : Char)
    (h : r.gameState ≠ GState.playing) : handleGuessLetter r l = r := by
  unfold handleGuessLetter
  rw [if_pos (Or.inl h)]

theorem handleGuessWord_eq_of_terminal (r : Round) (g : String)
    (h : r.gameState ≠ GState.playing) : handleGuessWord r g = r := by
  unfold handleGuessWord
  rw [if_pos h]

theorem handleGuessWord_wrong_playing (r : Round) (g : String)
    (hp : r.gameState = GState.playing) (hg : g ≠ r.currentWord)
    (hleft : ¬ r.wordGuessesLeft - 1 ≤ 0) :
    handleGuessWord r g =
      { r with wordGuessesLeft := r.wordGuessesLeft - 1,
               wrongWordGuesses := r.wrongWordGuesses ++ [g] } := by
  unfold handleGuessWord
  rw [if_neg (by simp [hp]), if_neg hg, if_neg hleft]

theorem handleGuessWord_wrong_lost (r : Round) (g : String)
    (hp : r.gameState = GState.playing) (hg : g ≠ r.currentWord)
    (hleft : r.wordGuessesLeft - 1 ≤ 0) :
    handleGuessWord r g =
      { r with wordGuessesLeft := r.wordGuessesLeft - 1,
               wrongWordGuesses := r.wrongWordGuesses ++ [g],
               gameState := GState.lost,
               message := outOfGuessesMessage r.currentWord } := by
  unfold handleGuessWord
  rw [if_neg (by simp [hp]), if_neg hg, if_pos hleft]

theorem winCheck_wonSubsetInv (w : String) (r : Round) (hword : r.currentWord = w)
    (hnwon : r.gameState ≠ GState.won) : WonSubsetInv w (winCheck r) := by
  subst hword
  unfold winCheck WonSubsetInv
  split
  · exact ⟨rfl, fun h => absurd h hnwon⟩
  split
  · rename_i hcond
    exact ⟨rfl, fun _ => hcond.2⟩
  · exact ⟨rfl, fun h => absurd h hnwon⟩

theorem wonSubsetInv_step (w : String) (r : Round) (l : Char)
    (h : WonSubsetInv w r) : WonSubsetInv w (handleGuessLetter r l) := by
  obtain ⟨hword, himp⟩ := h
  unfold handleGuessLetter
  by_cases hp : r.gameState = GState.playing
  · by_cases hl : l ∈ r.guessedLetters
    · rw [if_pos (Or.inr hl)]
      exact ⟨hword, himp⟩
    · rw [if_neg (by simp [hp, hl])]
      dsimp only
      split <;> split
      · exact winCheck_wonSubsetInv w _ hword (by simp)
      · exact winCheck_wonSubsetInv w _ hword (by simp [hp])
      · exact winCheck_wonSubsetInv w _ hword (by simp)
      · exact winCheck_wonSubsetInv w _ hword (by simp [hp])
  · rw [if_pos (Or.inl hp)]
    exact ⟨hword, himp⟩

theorem wonSubsetInv_play (w : String) (r : Round) (h : WonSubsetInv w r)
    (gs : List Char) : WonSubsetInv w (playLetters r gs) := by
  induction gs generalizing r with
  | nil => exact h
  | cons a as ih => exact ih (handleGuessLetter r a) (wonSubsetInv_step w r a h)

theorem wonSubsetInv_start (w : String) : WonSubsetInv w (startNewGame w) := by
  unfold WonSubsetInv startNewGame
  simp

end VariantB

namespace VariantA

theorem check_eq_of_terminal (r : Round) (h : r.gameState ≠ GState.playing) :
    check r = r := by
  unfold check
  rw [if_pos (Or.inl h)]

theorem handleGuessLetterA_eq_of_terminal (r : Round) (l : Char)
    (h : r.gameState ≠ GState.playing) : handleGuessLetter r l = r := by
  unfold handleGuessLetter
  rw [if_pos (Or.inl h)]

theorem handleGuessWordA_eq_of_terminal (r : Round) (g : String)
    (h : r.gameState ≠ GState.playing) : handleGuessWord r g = r := by
  unfold handleGuessWord
  rw [if_pos h]

theorem check_winInv (w : String) (hw : w ≠ "LOADING")
    (hc : 0 < (uniqueLettersInWord w).card) (r : Round)
    (hword : r.currentWord = w) (hp : r.gameState = GState.playing) :
    WinInv w (check r) := by
  subst hword
  unfold check WinInv
  rw [if_neg (by simp [hp, hw])]
  by_cases hsub : uniqueLettersInWord r.currentWord ⊆ r.guessedLetters
  · rw [if_pos ⟨hc, hsub⟩]
    exact ⟨rfl, by simp [hsub]⟩
  · rw [if_neg (fun h => hsub h.2)]
    split
    · exact ⟨rfl, by simp [hsub]⟩
    · exact ⟨rfl, by simp [hsub, hp]⟩

theorem winInv_step (w : String) (hw : w ≠ "LOADING")
    (hc : 0 < (uniqueLettersInWord w).card) (r : Round) (l : Char)
    (h : WinInv w r) : WinInv w (handleGuessLetter r l) := by
  obtain ⟨hword, hiff⟩ := h
  unfold handleGuessLetter
  by_cases hp : r.gameState = GState.playing
  · by_cases hl : l ∈ r.guessedLetters
    · rw [if_pos (Or.inr hl)]
      exact ⟨hword, hiff⟩
    · rw [if_neg (by simp [hp, hl])]
      dsimp only
      by_cases hin : l ∈ r.currentWord.toList
      · rw [if_pos hin]
        exact check_winInv w hw hc _ hword hp
      · rw [if_neg hin]
        exact check_winInv w hw hc _ hword hp
  · rw [if_pos (Or.inl hp)]
    exact ⟨hword, hiff⟩

theorem winInv_play (w : String) (hw : w ≠ "LOADING")
    (hc : 0 < (uniqueLettersInWord w).card) (r : Round)
    (h : WinInv w r) (gs : List Char) : WinInv w (playLetters r gs) := by
  induction gs generalizing r with
  | nil => exact h
  | cons a as ih => exact ih (handleGuessLetter r a) (winInv_step w hw hc r a h)

theorem winInv_start (w : String) (hc : 0 < (uniqueLettersInWord w).card) :
    WinInv w (startNewGame w) := by
  refine ⟨rfl, iff_of_false ?_ ?_⟩
  · intro h
    exact GState.noConfusion (show GState.playing = GState.won from h)
  · intro hsub
    have he : uniqueLettersInWord w = ∅ :=
      Finset.subset_empty.mp (show uniqueLettersInWord w ⊆ ∅ from hsub)
    rw [he] at hc
    simp at hc

theorem check_not_complete (r : Round) (hp : r.gameState = GState.playing)
    (hload : r.currentWord ≠ "LOADING")
    (hni : ¬ uniqueLettersInWord r.currentWord ⊆ r.guessedLetters) :
    check r = if MAX_WRONG_GUESSES ≤ r.wrongGuesses then
      { r with gameState := GState.lost,
               message := gameOverMessage r.currentWord }
    else r := by
  unfold check
  rw [if_neg (by simp [hp, hload]), if_neg (fun h => hni h.2)]

end VariantA

namespace VariantB

theorem handleGuessLetter_new (r : Round) (l : Char)
    (hp : r.gameState = GState.playing) (hl : l ∉ r.guessedLetters) :
    handleGuessLetter r l =
      if r.score - (if l ∈ VOWELS then COST_PER_VOWEL else COST_PER_CONSONANT) ≤ 0 then
        { r with guessedLetters := insert l r.guessedLetters, score := 0,
                 gameState := GState.lost,
                 message := outOfPointsMessage r.currentWord }
      else
        winCheck { r with guessedLetters := insert l r.guessedLetters,
                          score := r.score -
                            (if l ∈ VOWELS then COST_PER_VOWEL else COST_PER_CONSONANT) } := by
  unfold handleGuessLetter
  rw [if_neg (by simp [hp, hl])]
  dsimp only
  by_cases hc : r.score - (if l ∈ VOWELS then COST_PER_VOWEL else COST_PER_CONSONANT) ≤ 0
  · rw [if_pos hc, if_pos hc, winCheck_eq_of_terminal _ (by simp)]
  · rw [if_neg hc, if_neg hc]

end VariantB

/-- Claim C1: in the Variant B (cost-per-guess) engine, `handleGuessLetter`
on a playing round with a fresh letter deducts 15 from the score if the
letter is a vowel and 5 otherwise, regardless of whether the letter occurs
in the secret; when the resulting score would be ≤ 0 the round becomes lost
with the score set to 0, so the resulting score is never negative. -/
theorem claim1_guessLetterB_cost (r : VariantB.Round) (l : Char)
    (hp : r.gameState = GState.playing) (hl : l ∉ r.guessedLetters) :
    (r.score - (if l ∈ VariantB.VOWELS then 15 else 5) ≤ 0 →
      (VariantB.handleGuessLetter r l).gameState = GState.lost ∧
      (VariantB.handleGuessLetter r l).score = 0) ∧
    (0 < r.score - (if l ∈ VariantB.VOWELS then 15 else 5) →
      (VariantB.handleGuessLetter r l).score =
        r.score - (if l ∈ VariantB.VOWELS then 15 else 5)) ∧
    0 ≤ (VariantB.handleGuessLetter r l).score := by
  rw [show (if l ∈ VariantB.VOWELS then (15 : Int) else 5) =
    (if l ∈ VariantB.VOWELS then VariantB.COST_PER_VOWEL
      else VariantB.COST_PER_CONSONANT) from rfl]
  rw [VariantB.handleGuessLetter_new r l hp hl]
  by_cases hc : r.score -
      (if l ∈ VariantB.VOWELS then VariantB.COST_PER_VOWEL
        else VariantB.COST_PER_CONSONANT) ≤ 0
  · rw [if_pos hc]
    exact ⟨fun _ => ⟨rfl, rfl⟩, fun hgt => absurd hgt (not_lt.mpr hc), le_refl _⟩
  · rw [if_neg hc]
    refine ⟨fun hle => absurd hle hc, fun _ => ?_, ?_⟩
    · rw [VariantB.winCheck_score]
    · rw [VariantB.winCheck_score]
      exact le_of_lt (not_le.mp hc)

/-- Claim C1 witness: a concrete instantiation on a fresh round with secret
OAK and consonant guess Z. -/
theorem claim1_guessLetterB_cost_witness :
    ((VariantB.startNewGame wOAK).score - (if 'Z' ∈ VariantB.VOWELS then 15 else 5) ≤ 0 →
      (VariantB.handleGuessLetter (VariantB.startNewGame wOAK) 'Z').gameState = GState.lost ∧
      (VariantB.handleGuessLetter (VariantB.startNewGame wOAK) 'Z').score = 0) ∧
    (0 < (VariantB.startNewGame wOAK).score - (if 'Z' ∈ VariantB.VOWELS then 15 else 5) →
      (VariantB.handleGuessLetter (VariantB.startNewGame wOAK) 'Z').score =
        (VariantB.startNewGame wOAK).score - (if 'Z' ∈ VariantB.VOWELS then 15 else 5)) ∧
    0 ≤ (VariantB.handleGuessLetter (VariantB.startNewGame wOAK) 'Z').score :=
  claim1_guessLetterB_cost (VariantB.startNewGame wOAK) 'Z' rfl (by decide)

/-- Claim C2: in both variants, a terminal (won or lost) round is frozen —
`handleGuessLetter` and `handleGuessWord` return it unchanged — and the game
state can only change when the round was playing, so the only transitions
are Playing→Won, Playing→Lost, or staying put. -/
theorem claim2_terminal_frozen :
    (∀ (r : VariantA.Round) (l : Char) (g : String),
      (r.gameState ≠ GState.playing →
        VariantA.handleGuessLetter r l = r ∧ VariantA.handleGuessWord r g = r) ∧
      ((VariantA.handleGuessLetter r l).gameState ≠ r.gameState →
        r.gameState = GState.playing) ∧
      ((VariantA.handleGuessWord r g).gameState ≠ r.gameState →
        r.gameState = GState.playing)) ∧
    (∀ (r : VariantB.Round) (l : Char) (g : String),
      (r.gameState ≠ GState.playing →
        VariantB.handleGuessLetter r l = r ∧ VariantB.handleGuessWord r g = r) ∧
      ((VariantB.handleGuessLetter r l).gameState ≠ r.gameState →
        r.gameState = GState.playing) ∧
      ((VariantB.handleGuessWord r g).gameState ≠ r.gameState →
        r.gameState = GState.playing)) := by
  constructor
  · intro r l g
    refine ⟨fun h => ⟨VariantA.handleGuessLetterA_eq_of_terminal r l h,
      VariantA.handleGuessWordA_eq_of_terminal r g h⟩, fun hne => ?_, fun hne => ?_⟩
    · by_cases hp : r.gameState = GState.playing
      · exact hp
      · rw [VariantA.handleGuessLetterA_eq_of_terminal r l hp] at hne
        exact absurd rfl hne
    · by_cases hp : r.gameState = GState.playing
      · exact hp
      · rw [VariantA.handleGuessWordA_eq_of_terminal r g hp] at hne
        exact absurd rfl hne
  · intro r l g
    refine ⟨fun h => ⟨VariantB.handleGuessLetter_eq_of_terminal r l h,
      VariantB.handleGuessWord_eq_of_terminal r g h⟩, fun hne => ?_, fun hne => ?_⟩
    · by_cases hp : r.gameState = GState.playing
      · exact hp
      · rw [VariantB.handleGuessLetter_eq_of_terminal r l hp] at hne
        exact absurd rfl hne
    · by_cases hp : r.gameState = GState.playing
      · exact hp
      · rw [VariantB.handleGuessWord_eq_of_terminal r g hp] at hne
        exact absurd rfl hne

/-- Claim C2 witness: concrete won rounds are left unchanged by both
handlers. -/
theorem claim2_terminal_frozen_witness :
    VariantA.handleGuessLetter roundAWon 'Q' = roundAWon ∧
    VariantB.handleGuessWord roundBWon wELM = roundBWon :=
  ⟨((claim2_terminal_frozen.1 roundAWon 'Q' wELM).1 (by decide)).1,
   ((claim2_terminal_frozen.2 roundBWon 'Q' wELM).1 (by decide)).2⟩

/-- Claim C5: guessing a letter that is already in `guessedLetters` is a
no-op in both variants: the round value, hence score, guessed-letter set and
state, is unchanged. -/
theorem claim5_repeated_letter_noop (rA : VariantA.Round) (rB : VariantB.Round)
    (l : Char) (hA : l ∈ rA.guessedLetters) (hB : l ∈ rB.guessedLetters) :
    VariantA.handleGuessLetter rA l = rA ∧ VariantB.handleGuessLetter rB l = rB := by
  constructor
  · unfold VariantA.handleGuessLetter
    rw [if_pos (Or.inr hA)]
  · unfold VariantB.handleGuessLetter
    rw [if_pos (Or.inr hB)]

/-- Claim C5 witness: re-guessing the already guessed letter A on concrete
rounds of both variants. -/
theorem claim5_repeated_letter_noop_witness :
    VariantA.handleGuessLetter roundA1 'A' = roundA1 ∧
    VariantB.handleGuessLetter roundB1 'A' = roundB1 :=
  claim5_repeated_letter_noop roundA1 roundB1 'A' (by decide) (by decide)

/-- Claim C9: in the Variant A (reward/penalty) engine, a wrong whole-phrase
guess on a playing round subtracts 25 from the score and immediately sets
the state to Lost, with the loss message naming the secret. -/
theorem claim9_guessWordA_wrong (r : VariantA.Round) (g : String)
    (hp : r.gameState = GState.playing) (hg : g ≠ r.currentWord) :
    (VariantA.handleGuessWord r g).score = r.score - 25 ∧
    (VariantA.handleGuessWord r g).gameState = GState.lost ∧
    (VariantA.handleGuessWord r g).message = VariantA.notItMessage r.currentWord := by
  unfold VariantA.handleGuessWord
  rw [if_neg (by simp [hp]), if_neg hg]
  refine ⟨?_, rfl, rfl⟩
  show r.score + VariantA.PENALTY_PER_WRONG_WORD = r.score - 25
  unfold VariantA.PENALTY_PER_WRONG_WORD
  ring

/-- Claim C9 witness: the wrong guess ELM on a fresh OAK round of
Variant A. -/
theorem claim9_guessWordA_wrong_witness :
    (VariantA.handleGuessWord (VariantA.startNewGame wOAK) wELM).score =
      (VariantA.startNewGame wOAK).score - 25 ∧
    (VariantA.handleGuessWord (VariantA.startNewGame wOAK) wELM).gameState =
      GState.lost ∧
    (VariantA.handleGuessWord (VariantA.startNewGame wOAK) wELM).message =
      VariantA.notItMessage (VariantA.startNewGame wOAK).currentWord :=
  claim9_guessWordA_wrong (VariantA.startNewGame wOAK) wELM rfl (by decide)

/-- Claim C10: in the Variant A engine the score is unclamped below: it
starts at 0 and a first wrong letter guess leaves a playing round with the
negative score -5. -/
theorem claim10_variantA_negative_score :
    (VariantA.startNewGame wOAK).score = 0 ∧
    (VariantA.handleGuessLetter (VariantA.startNewGame wOAK) 'Z').score = -5 ∧
    (VariantA.handleGuessLetter (VariantA.startNewGame wOAK) 'Z').gameState =
      GState.playing ∧
    (VariantA.handleGuessLetter (VariantA.startNewGame wOAK) 'Z').score < 0 := by
  decide

/-- Claim C3 counterexample: in Variant B, with the secret ABCDEFGIOU the
ten letter guesses A..U contribute every distinct letter of the secret to
`guessedLetters`, yet the round ends Lost (the guesses cost exactly the 100
starting points), so reaching every distinct letter does not yield Won. -/
theorem claim3_counterexample_complete_but_lost :
    uniqueLettersInWord wALLCOST ⊆
      (VariantB.playLetters (VariantB.startNewGame wALLCOST)
        guessesALLCOST).guessedLetters ∧
    (VariantB.playLetters (VariantB.startNewGame wALLCOST)
        guessesALLCOST).gameState = GState.lost := by
  decide

/-- Claim C3 (amended): in Variant A a round played from the start by letter
guesses is Won exactly when every distinct non-space character of the secret
is in `guessedLetters`; in Variant B Won still implies that every distinct
non-space character was guessed, but the converse can fail when the guess
costs exhaust the score. -/
theorem claim3_amended_won_iff_complete :
    (∀ (w : String) (gs : List Char), w ≠ "LOADING" →
      0 < (uniqueLettersInWord w).card →
      ((VariantA.playLetters (VariantA.startNewGame w) gs).gameState = GState.won ↔
        uniqueLettersInWord w ⊆
          (VariantA.playLetters (VariantA.startNewGame w) gs).guessedLetters)) ∧
    (∀ (w : String) (gs : List Char),
      (VariantB.playLetters (VariantB.startNewGame w) gs).gameState = GState.won →
        uniqueLettersInWord w ⊆
          (VariantB.playLetters (VariantB.startNewGame w) gs).guessedLetters) := by
  constructor
  · intro w gs hw hc
    exact (VariantA.winInv_play w hw hc (VariantA.startNewGame w)
      (VariantA.winInv_start w hc) gs).2
  · intro w gs hwon
    exact (VariantB.wonSubsetInv_play w (VariantB.startNewGame w)
      (VariantB.wonSubsetInv_start w) gs).2 hwon

/-- Claim C3 witness: the Variant A equivalence instantiated on the secret
OAK with the guesses O, A, K. -/
theorem claim3_amended_won_iff_complete_witness :
    (VariantA.playLetters (VariantA.startNewGame wOAK)
        ['O', 'A', 'K']).gameState = GState.won ↔
      uniqueLettersInWord wOAK ⊆
        (VariantA.playLetters (VariantA.startNewGame wOAK)
          ['O', 'A', 'K']).guessedLetters :=
  claim3_amended_won_iff_complete.1 wOAK ['O', 'A', 'K'] (by decide) (by decide)

/-- Claim C4 counterexample: the word-guess counter of Variant B starts at
3, not 5, and three consecutive wrong whole-phrase guesses already drive the
round to Lost. -/
theorem claim4_counterexample_start_is_three :
    (VariantB.startNewGame wOAK).wordGuessesLeft = 3 ∧
    ¬ (VariantB.startNewGame wOAK).wordGuessesLeft = 5 ∧
    (VariantB.playWords (VariantB.startNewGame wOAK)
        [wELM, wFIR]).gameState = GState.playing ∧
    (VariantB.playWords (VariantB.startNewGame wOAK)
        [wELM, wFIR, wASH]).gameState = GState.lost := by
  decide

/-- Claim C4 (amended): `wordGuessesLeft` starts at 3; a wrong whole-phrase
guess on a playing round decrements it by one and the round becomes Lost
exactly when the decremented counter is ≤ 0 (so the third consecutive wrong
guess loses), while a correct whole-phrase guess on any playing round yields
Won with every distinct letter of the secret revealed. -/
theorem claim4_amended_three_word_guesses (w g : String) (r : VariantB.Round)
    (hg : g ≠ r.currentWord) (hp : r.gameState = GState.playing) :
    VariantB.STARTING_WORD_GUESSES = 3 ∧
    (VariantB.startNewGame w).wordGuessesLeft = 3 ∧
    (VariantB.handleGuessWord r g).wordGuessesLeft = r.wordGuessesLeft - 1 ∧
    ((VariantB.handleGuessWord r g).gameState = GState.lost ↔
      r.wordGuessesLeft - 1 ≤ 0) ∧
    ((VariantB.handleGuessWord r r.currentWord).gameState = GState.won ∧
      uniqueLettersInWord r.currentWord ⊆
        (VariantB.handleGuessWord r r.currentWord).guessedLetters) := by
  refine ⟨rfl, rfl, ?_, ?_, ?_⟩
  · by_cases hfatal : r.wordGuessesLeft - 1 ≤ 0
    · rw [VariantB.handleGuessWord_wrong_lost r g hp hg hfatal]
    · rw [VariantB.handleGuessWord_wrong_playing r g hp hg hfatal]
  · by_cases hfatal : r.wordGuessesLeft - 1 ≤ 0
    · rw [VariantB.handleGuessWord_wrong_lost r g hp hg hfatal]
      exact iff_of_true rfl hfatal
    · rw [VariantB.handleGuessWord_wrong_playing r g hp hg hfatal]
      refine iff_of_false ?_ hfatal
      show ¬ r.gameState = GState.lost
      rw [hp]
      exact fun h => GState.noConfusion h
  · unfold VariantB.handleGuessWord
    rw [if_neg (by simp [hp]), if_pos rfl]
    exact ⟨rfl, Finset.subset_union_right⟩

/-- Claim C4 witness: instantiated with the wrong guess ELM on a fresh OAK
round. -/
theorem claim4_amended_three_word_guesses_witness :
    VariantB.STARTING_WORD_GUESSES = 3 ∧
    (VariantB.startNewGame wOAK).wordGuessesLeft = 3 ∧
    (VariantB.handleGuessWord (VariantB.startNewGame wOAK) wELM).wordGuessesLeft =
      (VariantB.startNewGame wOAK).wordGuessesLeft - 1 ∧
    ((VariantB.handleGuessWord (VariantB.startNewGame wOAK) wELM).gameState =
        GState.lost ↔
      (VariantB.startNewGame wOAK).wordGuessesLeft - 1 ≤ 0) ∧
    ((VariantB.handleGuessWord (VariantB.startNewGame wOAK)
        (VariantB.startNewGame wOAK).currentWord).gameState = GState.won ∧
      uniqueLettersInWord (VariantB.startNewGame wOAK).currentWord ⊆
        (VariantB.handleGuessWord (VariantB.startNewGame wOAK)
          (VariantB.startNewGame wOAK).currentWord).guessedLetters) :=
  claim4_amended_three_word_guesses wOAK wELM (VariantB.startNewGame wOAK)
    (by decide) rfl


namespace VariantA

theorem handleGuessLetter_new_correct (r : Round) (l : Char)
    (hp : r.gameState = GState.playing) (hl : l ∉ r.guessedLetters)
    (hin : l ∈ r.currentWord.toList) :
    handleGuessLetter r l =
      check { r with guessedLetters := insert l r.guessedLetters,
                     score := r.score + (if l ∈ COMMON_LETTERS then
                       POINTS_PER_CORRECT_LETTER
                       else POINTS_PER_CORRECT_LETTER * 2) } := by
  unfold handleGuessLetter
  rw [if_neg (by simp [hp, hl])]
  dsimp only
  rw [if_pos hin]

theorem handleGuessLetter_new_wrong (r : Round) (l : Char)
    (hp : r.gameState = GState.playing) (hl : l ∉ r.guessedLetters)
    (hnin : l ∉ r.currentWord.toList) :
    handleGuessLetter r l =
      check { r with guessedLetters := insert l r.guessedLetters,
                     wrongGuesses := r.wrongGuesses + 1,
                     score := r.score + PENALTY_PER_WRONG_LETTER } := by
  unfold handleGuessLetter
  rw [if_neg (by simp [hp, hl])]
  dsimp only
  rw [if_neg hnin]

end VariantA

/-- Claim C6: in both variants, `handleGuessWord` on a playing round with
the candidate equal to the secret sets the state to Won, merges every
distinct non-space letter of the secret into `guessedLetters`, and sets the
message to the win template embedding the secret and the final score. -/
theorem claim6_guessWord_correct (rA : VariantA.Round) (rB : VariantB.Round)
    (hA : rA.gameState = GState.playing) (hB : rB.gameState = GState.playing) :
    ((VariantA.handleGuessWord rA rA.currentWord).gameState = GState.won ∧
      (VariantA.handleGuessWord rA rA.currentWord).guessedLetters =
        rA.guessedLetters ∪ uniqueLettersInWord rA.currentWord ∧
      (VariantA.handleGuessWord rA rA.currentWord).score =
        rA.score + VariantA.POINTS_PER_WORD_GUESS * (rA.difficulty : Int) +
          VariantA.POINTS_PER_CORRECT_LETTER *
            ((uniqueLettersInWord rA.currentWord).card : Int) ∧
      (VariantA.handleGuessWord rA rA.currentWord).message =
        VariantA.winMessage rA.currentWord
          (rA.score + VariantA.POINTS_PER_WORD_GUESS * (rA.difficulty : Int) +
            VariantA.POINTS_PER_CORRECT_LETTER *
              ((uniqueLettersInWord rA.currentWord).card : Int))) ∧
    ((VariantB.handleGuessWord rB rB.currentWord).gameState = GState.won ∧
      (VariantB.handleGuessWord rB rB.currentWord).guessedLetters =
        rB.guessedLetters ∪ uniqueLettersInWord rB.currentWord ∧
      (VariantB.handleGuessWord rB rB.currentWord).score = rB.score ∧
      (VariantB.handleGuessWord rB rB.currentWord).message =
        VariantB.winMessage rB.currentWord rB.score) := by
  constructor
  · unfold VariantA.handleGuessWord
    rw [if_neg (by simp [hA]), if_pos rfl]
    exact ⟨rfl, rfl, rfl, rfl⟩
  · unfold VariantB.handleGuessWord
    rw [if_neg (by simp [hB]), if_pos rfl]
    exact ⟨rfl, rfl, rfl, rfl⟩

/-- Claim C6 witness: correct whole-phrase guesses on fresh OAK rounds of
both variants. -/
theorem claim6_guessWord_correct_witness :
    ((VariantA.handleGuessWord (VariantA.startNewGame wOAK)
        (VariantA.startNewGame wOAK).currentWord).gameState = GState.won ∧
      (VariantA.handleGuessWord (VariantA.startNewGame wOAK)
        (VariantA.startNewGame wOAK).currentWord).guessedLetters =
        (VariantA.startNewGame wOAK).guessedLetters ∪
          uniqueLettersInWord (VariantA.startNewGame wOAK).currentWord ∧
      (VariantA.handleGuessWord (VariantA.startNewGame wOAK)
        (VariantA.startNewGame wOAK).currentWord).score =
        (VariantA.startNewGame wOAK).score +
          VariantA.POINTS_PER_WORD_GUESS *
            ((VariantA.startNewGame wOAK).difficulty : Int) +
          VariantA.POINTS_PER_CORRECT_LETTER *
            ((uniqueLettersInWord (VariantA.startNewGame wOAK).currentWord).card : Int) ∧
      (VariantA.handleGuessWord (VariantA.startNewGame wOAK)
        (VariantA.startNewGame wOAK).currentWord).message =
        VariantA.winMessage (VariantA.startNewGame wOAK).currentWord
          ((VariantA.startNewGame wOAK).score +
            VariantA.POINTS_PER_WORD_GUESS *
              ((VariantA.startNewGame wOAK).difficulty : Int) +
            VariantA.POINTS_PER_CORRECT_LETTER *
              ((uniqueLettersInWord
                (VariantA.startNewGame wOAK).currentWord).card : Int))) ∧
    ((VariantB.handleGuessWord (VariantB.startNewGame wOAK)
        (VariantB.startNewGame wOAK).currentWord).gameState = GState.won ∧
      (VariantB.handleGuessWord (VariantB.startNewGame wOAK)
        (VariantB.startNewGame wOAK).currentWord).guessedLetters =
        (VariantB.startNewGame wOAK).guessedLetters ∪
          uniqueLettersInWord (VariantB.startNewGame wOAK).currentWord ∧
      (VariantB.handleGuessWord (VariantB.startNewGame wOAK)
        (VariantB.startNewGame wOAK).currentWord).score =
        (VariantB.startNewGame wOAK).score ∧
      (VariantB.handleGuessWord (VariantB.startNewGame wOAK)
        (VariantB.startNewGame wOAK).currentWord).message =
        VariantB.winMessage (VariantB.startNewGame wOAK).currentWord
          (VariantB.startNewGame wOAK).score) :=
  claim6_guessWord_correct (VariantA.startNewGame wOAK)
    (VariantB.startNewGame wOAK) rfl rfl

/-- Claim C7: in the Variant B engine, a wrong whole-phrase guess on a
playing round decrements `wordGuessesLeft`, appends the candidate to the
display history, leaves score and guessed letters unchanged, and sets the
state to Lost with the loss template naming the secret exactly when the
decremented counter is ≤ 0; otherwise the round stays Playing with an empty
message. -/
theorem claim7_guessWordB_wrong (r : VariantB.Round) (g : String)
    (hp : r.gameState = GState.playing) (hg : g ≠ r.currentWord)
    (hm : r.message = "") :
    (VariantB.handleGuessWord r g).wordGuessesLeft = r.wordGuessesLeft - 1 ∧
    (VariantB.handleGuessWord r g).wrongWordGuesses = r.wrongWordGuesses ++ [g] ∧
    (VariantB.handleGuessWord r g).score = r.score ∧
    (VariantB.handleGuessWord r g).guessedLetters = r.guessedLetters ∧
    (r.wordGuessesLeft - 1 ≤ 0 →
      (VariantB.handleGuessWord r g).gameState = GState.lost ∧
      (VariantB.handleGuessWord r g).message =
        VariantB.outOfGuessesMessage r.currentWord) ∧
    (¬ r.wordGuessesLeft - 1 ≤ 0 →
      (VariantB.handleGuessWord r g).gameState = GState.playing ∧
      (VariantB.handleGuessWord r g).message = "") := by
  by_cases hfatal : r.wordGuessesLeft - 1 ≤ 0
  · rw [VariantB.handleGuessWord_wrong_lost r g hp hg hfatal]
    exact ⟨rfl, rfl, rfl, rfl, fun _ => ⟨rfl, rfl⟩, fun hnf => absurd hfatal hnf⟩
  · rw [VariantB.handleGuessWord_wrong_playing r g hp hg hfatal]
    exact ⟨rfl, rfl, rfl, rfl, fun hf => absurd hf hfatal, fun _ => ⟨hp, hm⟩⟩

/-- Claim C7 witness: the wrong guess ELM on a fresh OAK round of
Variant B. -/
theorem claim7_guessWordB_wrong_witness :
    (VariantB.handleGuessWord (VariantB.startNewGame wOAK) wELM).wordGuessesLeft =
      (VariantB.startNewGame wOAK).wordGuessesLeft - 1 ∧
    (VariantB.handleGuessWord (VariantB.startNewGame wOAK) wELM).wrongWordGuesses =
      (VariantB.startNewGame wOAK).wrongWordGuesses ++ [wELM] ∧
    (VariantB.handleGuessWord (VariantB.startNewGame wOAK) wELM).score =
      (VariantB.startNewGame wOAK).score ∧
    (VariantB.handleGuessWord (VariantB.startNewGame wOAK) wELM).guessedLetters =
      (VariantB.startNewGame wOAK).guessedLetters ∧
    ((VariantB.startNewGame wOAK).wordGuessesLeft - 1 ≤ 0 →
      (VariantB.handleGuessWord (VariantB.startNewGame wOAK) wELM).gameState =
        GState.lost ∧
      (VariantB.handleGuessWord (VariantB.startNewGame wOAK) wELM).message =
        VariantB.outOfGuessesMessage (VariantB.startNewGame wOAK).currentWord) ∧
    (¬ (VariantB.startNewGame wOAK).wordGuessesLeft - 1 ≤ 0 →
      (VariantB.handleGuessWord (VariantB.startNewGame wOAK) wELM).gameState =
        GState.playing ∧
      (VariantB.handleGuessWord (VariantB.startNewGame wOAK) wELM).message = "") :=
  claim7_guessWordB_wrong (VariantB.startNewGame wOAK) wELM rfl (by decide) rfl

/-- Claim C8 counterexample: on the one-letter secret O, the correct fresh
letter guess O occurs in the secret yet raises the score by 210, not by 10:
the guess completes the word and the win evaluation adds the
100 × difficulty bonus on top of the letter points. -/
theorem claim8_counterexample_win_bonus :
    (VariantA.startNewGame wO).score = 0 ∧
    'O' ∈ (VariantA.startNewGame wO).currentWord.toList ∧
    'O' ∈ VariantA.COMMON_LETTERS ∧
    (VariantA.handleGuessLetter (VariantA.startNewGame wO) 'O').score = 210 ∧
    ¬ (VariantA.handleGuessLetter (VariantA.startNewGame wO) 'O').score =
        (VariantA.startNewGame wO).score + 10 := by
  decide

/-- Claim C8 (amended): in the Variant A (reward/penalty) engine, guessing a fresh
letter on a playing round (that does not complete the word) adds 10 to the
score when the letter occurs in the secret, doubled to 20 when it is outside
the common-letters set; when it does not occur, the score drops by 5, the
wrong-letter count rises by 1, and the round becomes Lost exactly when the
count reaches 6. -/
theorem claim8_guessLetterA_scoring (r : VariantA.Round) (l : Char)
    (hp : r.gameState = GState.playing) (hl : l ∉ r.guessedLetters)
    (hload : r.currentWord ≠ "LOADING")
    (hni : ¬ uniqueLettersInWord r.currentWord ⊆ insert l r.guessedLetters)
    (hw6 : r.wrongGuesses < 6) :
    (l ∈ r.currentWord.toList →
      (VariantA.handleGuessLetter r l).score =
        r.score + (if l ∈ VariantA.COMMON_LETTERS then 10 else 20) ∧
      (VariantA.handleGuessLetter r l).gameState = GState.playing ∧
      (VariantA.handleGuessLetter r l).wrongGuesses = r.wrongGuesses) ∧
    (l ∉ r.currentWord.toList →
      (VariantA.handleGuessLetter r l).score = r.score - 5 ∧
      (VariantA.handleGuessLetter r l).wrongGuesses = r.wrongGuesses + 1 ∧
      ((VariantA.handleGuessLetter r l).gameState = GState.lost ↔
        6 ≤ r.wrongGuesses + 1)) := by
  constructor
  · intro hin
    rw [VariantA.handleGuessLetter_new_correct r l hp hl hin]
    rw [VariantA.check_not_complete
      { r with guessedLetters := insert l r.guessedLetters,
               score := r.score + (if l ∈ VariantA.COMMON_LETTERS then
                 VariantA.POINTS_PER_CORRECT_LETTER
                 else VariantA.POINTS_PER_CORRECT_LETTER * 2) } hp hload hni]
    dsimp only
    rw [if_neg (show ¬ VariantA.MAX_WRONG_GUESSES ≤ r.wrongGuesses from by
      unfold VariantA.MAX_WRONG_GUESSES; omega)]
    refine ⟨?_, hp, rfl⟩
    show r.score + (if l ∈ VariantA.COMMON_LETTERS then
        VariantA.POINTS_PER_CORRECT_LETTER
        else VariantA.POINTS_PER_CORRECT_LETTER * 2) =
      r.score + (if l ∈ VariantA.COMMON_LETTERS then 10 else 20)
    by_cases hcm : l ∈ VariantA.COMMON_LETTERS
    · rw [if_pos hcm, if_pos hcm]
      rfl
    · rw [if_neg hcm, if_neg hcm]
      rfl
  · intro hnin
    rw [VariantA.handleGuessLetter_new_wrong r l hp hl hnin]
    rw [VariantA.check_not_complete
      { r with guessedLetters := insert l r.guessedLetters,
               wrongGuesses := r.wrongGuesses + 1,
               score := r.score + VariantA.PENALTY_PER_WRONG_LETTER } hp hload hni]
    dsimp only
    by_cases h6 : VariantA.MAX_WRONG_GUESSES ≤ r.wrongGuesses + 1
    · rw [if_pos h6]
      refine ⟨?_, rfl, iff_of_true rfl h6⟩
      show r.score + VariantA.PENALTY_PER_WRONG_LETTER = r.score - 5
      unfold VariantA.PENALTY_PER_WRONG_LETTER
      ring
    · rw [if_neg h6]
      refine ⟨?_, rfl, iff_of_false ?_ (fun hh => h6 hh)⟩
      · show r.score + VariantA.PENALTY_PER_WRONG_LETTER = r.score - 5
        unfold VariantA.PENALTY_PER_WRONG_LETTER
        ring
      · show ¬ r.gameState = GState.lost
        rw [hp]
        exact fun h => GState.noConfusion h

/-- Claim C8 witness: the wrong letter Z on a fresh OAK round of
Variant A. -/
theorem claim8_guessLetterA_scoring_witness :
    ('Z' ∈ (VariantA.startNewGame wOAK).currentWord.toList →
      (VariantA.handleGuessLetter (VariantA.startNewGame wOAK) 'Z').score =
        (VariantA.startNewGame wOAK).score +
          (if 'Z' ∈ VariantA.COMMON_LETTERS then 10 else 20) ∧
      (VariantA.handleGuessLetter (VariantA.startNewGame wOAK) 'Z').gameState =
        GState.playing ∧
      (VariantA.handleGuessLetter (VariantA.startNewGame wOAK) 'Z').wrongGuesses =
        (VariantA.startNewGame wOAK).wrongGuesses) ∧
    ('Z' ∉ (VariantA.startNewGame wOAK).currentWord.toList →
      (VariantA.handleGuessLetter (VariantA.startNewGame wOAK) 'Z').score =
        (VariantA.startNewGame wOAK).score - 5 ∧
      (VariantA.handleGuessLetter (VariantA.startNewGame wOAK) 'Z').wrongGuesses =
        (VariantA.startNewGame wOAK).wrongGuesses + 1 ∧
      ((VariantA.handleGuessLetter (VariantA.startNewGame wOAK) 'Z').gameState =
          GState.lost ↔
        6 ≤ (VariantA.startNewGame wOAK).wrongGuesses + 1)) :=
  claim8_guessLetterA_scoring (VariantA.startNewGame wOAK) 'Z' rfl (by decide)
    (by decide) (by decide) (by decide)
